import Mathlib

/-!
Verification development for the CAPTCHA OCR core of the BLS-SPANISH
repository (`src/backend/enhanced_ocr_service.py`).

The pure matching / consolidation / batch-orchestration logic is embedded
shallowly.  External effects (PIL / OpenCV image transforms, the Tesseract
and EasyOCR engines, base64 decoding, the random sampler) are modelled as
explicit oracle parameters: a theorem quantifying over the oracle holds for
every possible behaviour of the external library, and a hypothesis on the
oracle records the documented contract of that library call
(e.g. `random.sample(range n, k)` returns `k` distinct values below `n`).

Confidences, which are Python floats in the source, are modelled as
rationals; every comparison appearing in the claims (`> 0.5`, `≥ 0.8`
against similarities that are exact quarters) is exact in both semantics.
-/

namespace OCR

/-- A single recognizer observation: `(text, confidence)`
    (`Detection` in the data model). -/
abbrev Detection := String × ℚ

/-- `self.confidence_threshold = 0.5` from `EnhancedOCRService.__init__`. -/
def confidence_threshold : ℚ := 1/2

/-- `self.similarity_threshold = 0.8` from `EnhancedOCRService.__init__`. -/
def similarity_threshold : ℚ := 4/5

/-- Python's `needle in hay` substring test, on character lists. -/
def isSubstr (needle hay : List Char) : Bool :=
  hay.tails.any (fun t => needle.isPrefixOf t)

/-- `_text_matches_target(text, target)`: exact equality, either-way
    substring containment, or character-reversed equality. -/
def text_matches_target (text target : String) : Bool :=
  if text == target then true
  else if isSubstr target.toList text.toList || isSubstr text.toList target.toList then true
  else if text.toList.reverse == target.toList then true
  else false

/-- Number of positions where the two (zipped) strings disagree:
    `sum(c1 != c2 for c1, c2 in zip(text, target))`. -/
def hammingDiff (text target : String) : Nat :=
  ((text.toList.zip target.toList).filter (fun p => p.1 != p.2)).length

/-- `_fuzzy_match(text, target)`.  Unequal lengths never match.  For two
    empty strings the source computes `differences / len(target)` with
    `len(target) = 0`; the resulting `ZeroDivisionError` is swallowed by the
    bare `except`, so the function returns `False` there. -/
def fuzzy_match (text target : String) : Bool :=
  if text.length != target.length then false
  else if target.length == 0 then false
  else decide ((1 : ℚ) - (hammingDiff text target : ℚ) / (target.length : ℚ)
                ≥ similarity_threshold)

/-- One step of building the insertion-ordered `text_groups` dict:
    append `c` to the group of `t`, or start a new group at the end
    (Python dicts preserve insertion order). -/
def addToGroups (gs : List (String × List ℚ)) (t : String) (c : ℚ) :
    List (String × List ℚ) :=
  match gs with
  | [] => [(t, [c])]
  | (u, cs) :: rest =>
      if u == t then (u, cs ++ [c]) :: rest else (u, cs) :: addToGroups rest t c

/-- The `text_groups` dict of `consolidate_results`, as an association list
    in key-insertion order. -/
def groupTexts (l : List Detection) : List (String × List ℚ) :=
  l.foldl (fun gs d => addToGroups gs d.1 d.2) []

/-- `sum(confidences) / len(confidences)`. -/
def avgConf (cs : List ℚ) : ℚ := cs.sum / (cs.length : ℚ)

/-- Stable insertion into a list sorted by descending confidence; together
    with `sortByConfDesc` this models Python's stable
    `list.sort(key=lambda x: x[1], reverse=True)`. -/
def insertDesc (x : String × ℚ) : List (String × ℚ) → List (String × ℚ)
  | [] => [x]
  | y :: ys => if x.2 ≥ y.2 then x :: y :: ys else y :: insertDesc x ys

/-- Stable sort by descending confidence. -/
def sortByConfDesc (l : List (String × ℚ)) : List (String × ℚ) :=
  l.foldr insertDesc []

/-- The grouped-and-averaged, confidence-sorted `final_results` list of
    `consolidate_results`. -/
def finalResults (l : List Detection) : List (String × ℚ) :=
  sortByConfDesc ((groupTexts l).map (fun g => (g.1, avgConf g.2)))

/-- `consolidate_results(all_results, target)`: empty input short-circuits
    to `[]`; otherwise the first (exact/substring/reverse) pass collects
    matching texts in confidence order, and only if that pass produced
    nothing is the fuzzy pass run over the same list. -/
def consolidate_results (all_results : List Detection) (target : String) :
    List String :=
  if all_results.isEmpty then []
  else
    let final := finalResults all_results
    let matched := (final.filter (fun p => text_matches_target p.1 target)).map Prod.fst
    if matched.isEmpty then
      (final.filter (fun p => fuzzy_match p.1 target)).map Prod.fst
    else matched

/-! ## Batch orchestrator (`process_captcha_tiles`) -/

/-- One input tile: `payload` models `tile.get('base64Image')`
    (`none` when the key is absent, `some s` for the stored string). -/
structure Tile where
  payload : Option String
deriving Repr, DecidableEq

/-- Python truthiness of `tile.get('base64Image')`: a missing key yields
    `None` (falsy) and the empty string is falsy too. -/
def truthy : Option String → Bool
  | none => false
  | some s => !s.isEmpty

/-- Everything `enhanced_ocr_process` obtains from the external world for
    one tile image: whether base64 decoding / `Image.open` succeeded, and the
    pooled raw detections that the preprocessing variants and the three
    recognizers produced for this image. -/
structure TileOutcome where
  decodeOk : Bool
  detections : List Detection

/-- The two fields of `enhanced_ocr_process`'s returned dict that
    `process_captcha_tiles` reads (`result.get('success')`,
    `result.get('matches')`).  A decode failure returns
    `{"success": False, "error": ...}` — no `matches` key, modelled as `[]`. -/
structure OcrResult where
  success : Bool
  matched : List String

/-- `enhanced_ocr_process(base64_image, target)`, given the external
    outcome for this image: on decode failure it returns `success=False`
    without raising; otherwise it consolidates the pooled detections and
    reports `success = (len(matches) > 0)`. -/
def enhanced_ocr_process (oc : TileOutcome) (target : String) : OcrResult :=
  if !oc.decodeOk then { success := false, matched := [] }
  else
    let m := consolidate_results oc.detections target
    { success := !m.isEmpty, matched := m }

/-- An OCR oracle: the `TileOutcome` the external recognizers produce for
    the tile at a given index with a given payload string. -/
abbrev OcrOracle := Nat → String → TileOutcome

/-- The per-tile loop of `process_captcha_tiles` over `enumerate(tiles)`:
    returns `(matching_indices, processed_count)` accumulated in order.
    A falsy payload is skipped by `continue` before `processed_count` is
    touched; otherwise `enhanced_ocr_process` runs (it never raises),
    `processed_count` is incremented, and the index is recorded when the
    result is truthy in both `success` and `matches`. -/
def tileLoop (oracle : OcrOracle) (target : String) :
    List (Nat × Tile) → List Nat × Nat
  | [] => ([], 0)
  | (idx, t) :: rest =>
      if truthy t.payload then
        let r := enhanced_ocr_process (oracle idx (t.payload.getD "")) target
        (if r.success && !r.matched.isEmpty
         then idx :: (tileLoop oracle target rest).1
         else (tileLoop oracle target rest).1,
         (tileLoop oracle target rest).2 + 1)
      else tileLoop oracle target rest

/-- The `matching_indices` produced by recognition alone (before the
    fallback branch). -/
def recognitionIndices (tiles : List Tile) (oracle : OcrOracle)
    (target : String) : List Nat :=
  (tileLoop oracle target tiles.enum).1

/-- The `processed_count` of the loop. -/
def processedCount (tiles : List Tile) (oracle : OcrOracle)
    (target : String) : Nat :=
  (tileLoop oracle target tiles.enum).2

/-- Whether the loop records a given `(index, tile)` pair in
    `matching_indices`: truthy payload, and an `enhanced_ocr_process`
    result truthy in both `success` and `matches`. -/
def tileHit (oracle : OcrOracle) (target : String) (p : Nat × Tile) : Bool :=
  truthy p.2.payload &&
    ((enhanced_ocr_process (oracle p.1 (p.2.payload.getD "")) target).success &&
      !(enhanced_ocr_process (oracle p.1 (p.2.payload.getD "")) target).matched.isEmpty)

/-- `if not matching_indices and processed_count > 0`: the condition under
    which the random-selection fallback fires. -/
def fallback_fired (tiles : List Tile) (oracle : OcrOracle)
    (target : String) : Bool :=
  (recognitionIndices tiles oracle target).isEmpty
    && decide (0 < processedCount tiles oracle target)

/-- A sampler oracle modelling `random.sample`: `sample n k` is the list
    returned by `random.sample(range(n), k)` on this run. -/
abbrev Sampler := Nat → Nat → List Nat

/-- The documented contract of `random.sample(range(n), k)` for `k ≤ n`:
    a list of `k` distinct members of `range(n)`, in selection order
    (which is random — in particular not necessarily ascending). -/
def validSample (n k : Nat) (l : List Nat) : Prop :=
  l.length = k ∧ l.Nodup ∧ ∀ x ∈ l, x < n

/-- A sampler satisfying `random.sample`'s contract at every applicable
    call. -/
def Sampler.Valid (sample : Sampler) : Prop :=
  ∀ n k, k ≤ n → validSample n k (sample n k)

/-- The result dict built at the end of `process_captcha_tiles`
    (success path). -/
structure BatchResult where
  target : String
  matching_indices : List Nat
  processed_tiles : Nat
  total_tiles : Nat
  success : Bool
deriving Repr, DecidableEq

/-- `process_captcha_tiles(tiles, target)`: run the per-tile loop; if no
    index matched but at least one tile was processed, replace
    `matching_indices` by `random.sample(range(len(tiles)), min(3, len(tiles)))`;
    report `success = (len(matching_indices) > 0)`. -/
def process_captcha_tiles (tiles : List Tile) (target : String)
    (oracle : OcrOracle) (sample : Sampler) : BatchResult :=
  let recog := recognitionIndices tiles oracle target
  let processed := processedCount tiles oracle target
  let matching :=
    if recog.isEmpty && decide (0 < processed) then
      sample tiles.length (min 3 tiles.length)
    else recog
  { target := target
    matching_indices := matching
    processed_tiles := processed
    total_tiles := tiles.length
    success := !matching.isEmpty }

/-- The JSON-serialisable values appearing in the response dict. -/
inductive JValue where
  | s (v : String)
  | n (v : Nat)
  | b (v : Bool)
  | arr (v : List Nat)
deriving Repr, DecidableEq

/-- The literal key-value pairs of the dict `process_captcha_tiles`
    returns (source lines 412–419), in source order. -/
def resultDict (r : BatchResult) : List (String × JValue) :=
  [("target", .s r.target),
   ("matching_indices", .arr r.matching_indices),
   ("processed_tiles", .n r.processed_tiles),
   ("total_tiles", .n r.total_tiles),
   ("success", .b r.success),
   ("method", .s "enhanced_ocr")]

/-! ## Tesseract recognizer (`extract_numbers_tesseract`) -/

/-- Python `str.strip()` with no argument: remove leading and trailing
    whitespace. -/
def pyStrip (s : String) : String :=
  ⟨((s.toList.dropWhile Char.isWhitespace).reverse.dropWhile
      Char.isWhitespace).reverse⟩

/-- Python `str.isdigit()` on the strings at hand: non-empty and all
    characters decimal digits. -/
def isDigitStr (s : String) : Bool :=
  !s.toList.isEmpty && s.toList.all Char.isDigit

/-- Scanner for `digitRuns`: `cur` is the current digit run, reversed. -/
def digitRunsAux : List Char → List Char → List (List Char)
  | cur, [] => if cur.isEmpty then [] else [cur.reverse]
  | cur, c :: cs =>
      if c.isDigit then digitRunsAux (c :: cur) cs
      else if cur.isEmpty then digitRunsAux [] cs
      else cur.reverse :: digitRunsAux [] cs

/-- `re.findall(r'\d+', text)`: the maximal runs of consecutive digits,
    left to right. -/
def digitRuns (l : List Char) : List (List Char) :=
  digitRunsAux [] l

/-- What one `pytesseract.image_to_data` call returns: the parallel
    `data['text']` and `data['conf']` lists (confidence in percent). -/
structure TessData where
  texts : List String
  confs : List ℚ

/-- How far one configuration's `try` body got before an exception:
    `image_to_data` itself raised (`dataFailed`, nothing from this config),
    `image_to_string` raised after the data loop already appended its
    results (`rawFailed`), or both calls returned (`ok`). -/
inductive ConfigRun where
  | dataFailed
  | rawFailed (d : TessData)
  | ok (d : TessData) (raw : String)

/-- The data-dict loop of one configuration: keep `text.strip()` when it is
    a non-empty digit string and `conf/100` strictly exceeds the confidence
    threshold.  No minimum length is imposed on this path. -/
def dataDetections (d : TessData) : List Detection :=
  (d.texts.zip d.confs).filterMap (fun tc =>
    let st := pyStrip tc.1
    if isDigitStr st && decide (tc.2 / 100 > confidence_threshold)
    then some (st, tc.2 / 100) else none)

/-- The `image_to_string` regex path of one configuration: digit runs of
    length ≥ 2, each at the fixed default confidence 0.8. -/
def rawDetections (raw : String) : List Detection :=
  (digitRuns raw.toList).filterMap (fun run =>
    if 2 ≤ run.length then some (⟨run⟩, 4/5) else none)

/-- Results contributed by one configuration, honouring where its `try`
    body stopped. -/
def configDetections : ConfigRun → List Detection
  | .dataFailed => []
  | .rawFailed d => dataDetections d
  | .ok d raw => dataDetections d ++ rawDetections raw

/-- `extract_numbers_tesseract(image)`: empty when the library is missing,
    otherwise the concatenation of every configuration's contribution
    (the source iterates four configurations; `runs` is the engine's
    behaviour on each). -/
def extract_numbers_tesseract (available : Bool) (runs : List ConfigRun) :
    List Detection :=
  if !available then [] else (runs.map configDetections).flatten

/-! ## Image preprocessor (`preprocess_image`) -/

/-- Abstract images: the source image and the transforms the preprocessor
    applies to it. -/
inductive Img where
  | orig
  | rgb (i : Img)
  | gray (i : Img)
  | contrast (i : Img)
  | sharp (i : Img)
  | median (i : Img)
  | binary (i : Img)
  | adaptive (i : Img)
  | morph (i : Img)
deriving Repr, DecidableEq

/-- Which library calls of `preprocess_image` raise on this input:
    one flag per PIL operation (these are *not* inside any `try`), and
    `cvCount` = how many of the three OpenCV variants (binary, adaptive,
    morphological) were appended before the single guarding `try` block
    raised (3 when nothing raised). -/
structure TransformOracle where
  rgbOk : Bool
  grayOk : Bool
  contrastOk : Bool
  sharpOk : Bool
  medianOk : Bool
  cvCount : Nat

/-- `preprocess_image(image)`.  `needsRgb` is whether `image.mode != 'RGB'`.
    The PIL conversions and enhancements run outside any `try`, so a raise
    there propagates (`Except.error`); the OpenCV block is wrapped in one
    `try/except`, so a raise there only truncates the OpenCV variants. -/
def preprocess_image (needsRgb : Bool) (o : TransformOracle) :
    Except Unit (List Img) :=
  if needsRgb && !o.rgbOk then .error ()
  else
    let base := if needsRgb then Img.rgb Img.orig else Img.orig
    if !o.grayOk then .error ()
    else
      let g := Img.gray base
      if !o.contrastOk then .error ()
      else
        if !o.sharpOk then .error ()
        else
          if !o.medianOk then .error ()
          else
            .ok ([base, g, Img.contrast g, Img.sharp (Img.contrast g),
                  Img.median g]
                 ++ [Img.binary g, Img.adaptive g, Img.morph g].take o.cvCount)

end OCR

namespace OCR

/-! ## Lemmas about consolidation -/

theorem mem_insertDesc {x a : String × ℚ} {l : List (String × ℚ)} :
    x ∈ insertDesc a l ↔ x = a ∨ x ∈ l := by
  induction l with
  | nil => simp [insertDesc]
  | cons y ys ih =>
      by_cases h : a.2 ≥ y.2
      · simp [insertDesc, h]
      · simp only [insertDesc, if_neg h, List.mem_cons, ih]
        tauto

theorem mem_sortByConfDesc {x : String × ℚ} {l : List (String × ℚ)} :
    x ∈ sortByConfDesc l ↔ x ∈ l := by
  induction l with
  | nil => simp [sortByConfDesc]
  | cons y ys ih =>
      show x ∈ insertDesc y (sortByConfDesc ys) ↔ _
      rw [mem_insertDesc, ih]
      simp

theorem mem_keys_addToGroups (gs : List (String × List ℚ)) (t : String) (c : ℚ)
    (x : String) :
    x ∈ (addToGroups gs t c).map Prod.fst ↔ x ∈ gs.map Prod.fst ∨ x = t := by
  induction gs with
  | nil => simp [addToGroups]
  | cons g rest ih =>
      obtain ⟨u, cs⟩ := g
      by_cases h : u = t
      · subst h
        simp [addToGroups]
        tauto
      · simp only [addToGroups, beq_iff_eq, if_neg h, List.map_cons, List.mem_cons, ih]
        tauto

theorem mem_keys_groupTexts_aux (l : List Detection)
    (gs : List (String × List ℚ)) (x : String) :
    x ∈ ((l.foldl (fun gs d => addToGroups gs d.1 d.2) gs).map Prod.fst) ↔
      x ∈ gs.map Prod.fst ∨ x ∈ l.map Prod.fst := by
  induction l generalizing gs with
  | nil => simp
  | cons d rest ih =>
      simp only [List.foldl_cons, ih, mem_keys_addToGroups, List.map_cons,
        List.mem_cons]
      tauto

theorem mem_keys_groupTexts (l : List Detection) (x : String) :
    x ∈ (groupTexts l).map Prod.fst ↔ x ∈ l.map Prod.fst := by
  simpa [groupTexts] using mem_keys_groupTexts_aux l [] x

theorem mem_filter_keys (F : List (String × ℚ)) (p : String → Bool) (x : String) :
    x ∈ ((F.filter (fun q => p q.1)).map Prod.fst) ↔
      x ∈ F.map Prod.fst ∧ p x = true := by
  simp only [List.mem_map, List.mem_filter]
  constructor
  · rintro ⟨q, ⟨hq, hp⟩, rfl⟩
    exact ⟨⟨q, hq, rfl⟩, hp⟩
  · rintro ⟨⟨q, hq, rfl⟩, hp⟩
    exact ⟨q, ⟨hq, hp⟩, rfl⟩

theorem mem_keys_finalResults (l : List Detection) (x : String) :
    x ∈ (finalResults l).map Prod.fst ↔ x ∈ l.map Prod.fst := by
  have h1 : x ∈ (finalResults l).map Prod.fst ↔
      x ∈ (groupTexts l).map Prod.fst := by
    simp only [finalResults, List.mem_map]
    constructor
    · rintro ⟨p, hp, rfl⟩
      rw [mem_sortByConfDesc] at hp
      simp only [List.mem_map] at hp
      obtain ⟨g, hg, rfl⟩ := hp
      exact ⟨g, hg, rfl⟩
    · rintro ⟨g, hg, rfl⟩
      refine ⟨(g.1, avgConf g.2), ?_, rfl⟩
      rw [mem_sortByConfDesc]
      exact List.mem_map_of_mem _ hg
  rw [h1, mem_keys_groupTexts]

end OCR

namespace OCR

/-- Specialisation of `mem_filter_keys` to the first pass of
    `consolidate_results`. -/
theorem mem_exactPass (l : List Detection) (target x : String) :
    x ∈ ((finalResults l).filter
        (fun p => text_matches_target p.1 target)).map Prod.fst ↔
      x ∈ l.map Prod.fst ∧ text_matches_target x target = true :=
  Iff.trans
    (mem_filter_keys (finalResults l) (fun y => text_matches_target y target) x)
    (and_congr_left fun _ => mem_keys_finalResults l x)

/-- Specialisation of `mem_filter_keys` to the fuzzy pass of
    `consolidate_results`. -/
theorem mem_fuzzyPass (l : List Detection) (target x : String) :
    x ∈ ((finalResults l).filter
        (fun p => fuzzy_match p.1 target)).map Prod.fst ↔
      x ∈ l.map Prod.fst ∧ fuzzy_match x target = true :=
  Iff.trans
    (mem_filter_keys (finalResults l) (fun y => fuzzy_match y target) x)
    (and_congr_left fun _ => mem_keys_finalResults l x)

/-- The first (exact/substring/reverse) pass of `consolidate_results`
    produces nothing iff no detected text matches the target. -/
theorem exactPass_empty_iff (l : List Detection) (target : String) :
    ((finalResults l).filter
        (fun p => text_matches_target p.1 target)).map Prod.fst = [] ↔
      ∀ u ∈ l.map Prod.fst, text_matches_target u target = false := by
  rw [List.eq_nil_iff_forall_not_mem]
  constructor
  · intro h u hu
    by_contra hm
    exact h u ((mem_exactPass l target u).mpr
      ⟨hu, by simpa using hm⟩)
  · intro h u hu
    rw [mem_exactPass] at hu
    have := h u hu.1
    simp [this] at hu

/-- Membership characterisation for `consolidate_results`: a text is
    returned iff it was detected and first-pass matches, or no detected
    text first-pass matches and it was detected and fuzzy-matches. -/
theorem mem_consolidate_iff (l : List Detection) (target x : String) :
    x ∈ consolidate_results l target ↔
      ((x ∈ l.map Prod.fst ∧ text_matches_target x target = true) ∨
        ((∀ u ∈ l.map Prod.fst, text_matches_target u target = false) ∧
          x ∈ l.map Prod.fst ∧ fuzzy_match x target = true)) := by
  rcases l with _ | ⟨d, rest⟩
  · simp [consolidate_results]
  · set l := d :: rest with hl
    have hne : l.isEmpty = false := by simp [hl]
    rw [consolidate_results]
    simp only [hne, Bool.false_eq_true, if_false]
    by_cases hempty : ((finalResults l).filter
        (fun p => text_matches_target p.1 target)).map Prod.fst = []
    · have hforall := (exactPass_empty_iff l target).mp hempty
      simp only [hempty, List.isEmpty_nil, if_true]
      rw [mem_fuzzyPass]
      constructor
      · rintro ⟨h1, h2⟩
        exact Or.inr ⟨hforall, h1, h2⟩
      · rintro (⟨h1, h2⟩ | ⟨_, h1, h2⟩)
        · exact absurd (hforall x h1) (by simp [h2])
        · exact ⟨h1, h2⟩
    · have hforall := (not_iff_not.mpr (exactPass_empty_iff l target)).mp hempty
      have hbool : (((finalResults l).filter
          (fun p => text_matches_target p.1 target)).map Prod.fst).isEmpty = false := by
        simpa [List.isEmpty_iff] using hempty
      simp only [hbool, Bool.false_eq_true, if_false]
      rw [mem_exactPass]
      constructor
      · rintro ⟨h1, h2⟩
        exact Or.inl ⟨h1, h2⟩
      · rintro (⟨h1, h2⟩ | ⟨hall, h1, h2⟩)
        · exact ⟨h1, h2⟩
        · exact absurd hall hforall

end OCR

namespace OCR

/-! ## Lemmas about the tile loop -/

theorem tileLoop_fst_eq_filter (oracle : OcrOracle) (target : String)
    (pairs : List (Nat × Tile)) :
    (tileLoop oracle target pairs).1 =
      (pairs.filter (tileHit oracle target)).map Prod.fst := by
  induction pairs with
  | nil => rfl
  | cons p rest ih =>
      obtain ⟨idx, t⟩ := p
      by_cases h : truthy t.payload
      · by_cases h2 : ((enhanced_ocr_process (oracle idx (t.payload.getD "")) target).success
            && !(enhanced_ocr_process (oracle idx (t.payload.getD "")) target).matched.isEmpty) = true
        · simp [tileLoop, tileHit, h, h2, List.filter_cons, ih]
        · simp [tileLoop, tileHit, h, h2, List.filter_cons, ih]
      · simp [tileLoop, tileHit, h, List.filter_cons, ih]

theorem tileLoop_snd_eq_countP (oracle : OcrOracle) (target : String)
    (pairs : List (Nat × Tile)) :
    (tileLoop oracle target pairs).2 =
      pairs.countP (fun p => truthy p.2.payload) := by
  induction pairs with
  | nil => rfl
  | cons p rest ih =>
      obtain ⟨idx, t⟩ := p
      by_cases h : truthy t.payload <;>
        simp [tileLoop, h, ih, List.countP_cons]

/-- A pair whose tile has a falsy payload is a no-op for the loop: the loop
    over any list containing it computes exactly what the loop over the
    list without it computes. -/
theorem tileLoop_skip (oracle : OcrOracle) (target : String)
    (xs ys : List (Nat × Tile)) (i : Nat) (t : Tile)
    (ht : truthy t.payload = false) :
    tileLoop oracle target (xs ++ (i, t) :: ys) =
      tileLoop oracle target (xs ++ ys) := by
  induction xs with
  | nil => simp [tileLoop, ht]
  | cons x rest ih =>
      obtain ⟨idx, u⟩ := x
      by_cases h : truthy u.payload <;>
        simp [tileLoop, h, ih]

theorem countP_enumFrom (l : List Tile) (q : Tile → Bool) (n : Nat) :
    (List.enumFrom n l).countP (fun p => q p.2) = l.countP q := by
  induction l generalizing n with
  | nil => rfl
  | cons t rest ih => simp [List.enumFrom, List.countP_cons, ih]

theorem processedCount_eq_countP (tiles : List Tile) (oracle : OcrOracle)
    (target : String) :
    processedCount tiles oracle target =
      tiles.countP (fun t => truthy t.payload) := by
  rw [processedCount, tileLoop_snd_eq_countP]
  simpa [List.enum] using countP_enumFrom tiles (fun t => truthy t.payload) 0

theorem recognitionIndices_sublist_range (tiles : List Tile)
    (oracle : OcrOracle) (target : String) :
    List.Sublist (recognitionIndices tiles oracle target)
      (List.range tiles.length) := by
  rw [recognitionIndices, tileLoop_fst_eq_filter]
  have h1 : List.Sublist (tiles.enum.filter (tileHit oracle target))
      tiles.enum := List.filter_sublist _
  have h2 := h1.map Prod.fst
  rwa [List.enum_map_fst] at h2

theorem recognitionIndices_pairwise (tiles : List Tile) (oracle : OcrOracle)
    (target : String) :
    (recognitionIndices tiles oracle target).Pairwise (· < ·) :=
  (List.pairwise_lt_range tiles.length).sublist
    (recognitionIndices_sublist_range tiles oracle target)

theorem recognitionIndices_lt (tiles : List Tile) (oracle : OcrOracle)
    (target : String) :
    ∀ x ∈ recognitionIndices tiles oracle target, x < tiles.length :=
  fun _ hx => List.mem_range.mp
    ((recognitionIndices_sublist_range tiles oracle target).subset hx)

end OCR

namespace OCR

/-! ## Unfolding lemmas for `process_captcha_tiles` -/

theorem process_matching_indices (tiles : List Tile) (target : String)
    (oracle : OcrOracle) (sample : Sampler) :
    (process_captcha_tiles tiles target oracle sample).matching_indices =
      if fallback_fired tiles oracle target
      then sample tiles.length (min 3 tiles.length)
      else recognitionIndices tiles oracle target := rfl

theorem process_processed_tiles (tiles : List Tile) (target : String)
    (oracle : OcrOracle) (sample : Sampler) :
    (process_captcha_tiles tiles target oracle sample).processed_tiles =
      processedCount tiles oracle target := rfl

theorem process_total_tiles (tiles : List Tile) (target : String)
    (oracle : OcrOracle) (sample : Sampler) :
    (process_captcha_tiles tiles target oracle sample).total_tiles =
      tiles.length := rfl

theorem process_success (tiles : List Tile) (target : String)
    (oracle : OcrOracle) (sample : Sampler) :
    (process_captcha_tiles tiles target oracle sample).success =
      !(process_captcha_tiles tiles target oracle sample).matching_indices.isEmpty := rfl

end OCR

namespace OCR

/-! ## Claim C1 -/

/-- C1 counterexample: at a concrete one-tile batch whose tile matches the
    target, the response dict of `process_captcha_tiles` has no
    `usedFallback` key at all, refuting the claim that the batch solve
    response contains a `usedFallback` boolean field. -/
theorem C1_counterexample :
    (resultDict (process_captcha_tiles [Tile.mk (some "img")] "47"
        (fun _ _ => ⟨true, [("47", 1)]⟩)
        (fun _ k => List.range k))).lookup "usedFallback" = none := by
  simp [resultDict]

/-- C1 (amended): the response dict of `process_captcha_tiles` never
    carries a `usedFallback` key — its keys are exactly `target`,
    `matching_indices`, `processed_tiles`, `total_tiles`, `success`,
    `method`; the random-selection fallback fires iff recognition produced
    zero matching tiles and at least one tile was processed
    (`fallback_fired`), in which case `matching_indices` is the random
    sample, and otherwise it is the recognition result. -/
theorem C1_amended (tiles : List Tile) (target : String)
    (oracle : OcrOracle) (sample : Sampler) :
    (resultDict (process_captcha_tiles tiles target oracle sample)).lookup
        "usedFallback" = none ∧
    (resultDict (process_captcha_tiles tiles target oracle sample)).map
        Prod.fst =
      ["target", "matching_indices", "processed_tiles", "total_tiles",
        "success", "method"] ∧
    (process_captcha_tiles tiles target oracle sample).matching_indices =
      (if (recognitionIndices tiles oracle target).isEmpty
          && decide (0 < processedCount tiles oracle target)
       then sample tiles.length (min 3 tiles.length)
       else recognitionIndices tiles oracle target) := by
  refine ⟨by simp [resultDict], rfl, ?_⟩
  exact process_matching_indices tiles target oracle sample

/-! ## Claim C2 -/

/-- C2 counterexample: a non-empty batch whose single tile has no
    `base64Image` payload is returned with `success = false` — no tile is
    processed, so the fallback does not fire and the matching-index set is
    empty, refuting `success = true` for every non-empty batch. -/
theorem C2_counterexample :
    ([Tile.mk none] ≠ []) ∧
    (process_captcha_tiles [Tile.mk none] "47"
        (fun _ _ => ⟨true, [("47", 1)]⟩)
        (fun _ k => List.range k)).success = false := by
  exact ⟨by simp, rfl⟩

/-- C2 (amended): `success = true` holds for every batch containing at
    least one tile with a truthy (present and non-empty) payload, provided
    the random sampler meets `random.sample`'s contract; the fallback
    guarantees a non-empty matching-index set in that case. -/
theorem C2_amended (tiles : List Tile) (target : String)
    (oracle : OcrOracle) (sample : Sampler) (hs : Sampler.Valid sample)
    (h : ∃ t ∈ tiles, truthy t.payload = true) :
    (process_captcha_tiles tiles target oracle sample).success = true := by
  have hproc : 0 < processedCount tiles oracle target := by
    rw [processedCount_eq_countP]
    obtain ⟨t, ht, htr⟩ := h
    exact List.countP_pos_iff.mpr ⟨t, ht, htr⟩
  have hlen : 0 < tiles.length := by
    obtain ⟨t, ht, _⟩ := h
    exact List.length_pos.mpr (List.ne_nil_of_mem ht)
  rw [process_success, process_matching_indices]
  by_cases hrec : (recognitionIndices tiles oracle target).isEmpty = true
  · have hff : fallback_fired tiles oracle target = true := by
      simp [fallback_fired, hrec, hproc]
    rw [if_pos hff]
    obtain ⟨hlen', _, _⟩ :=
      hs tiles.length (min 3 tiles.length) (min_le_right _ _)
    have hpos : 0 < (sample tiles.length (min 3 tiles.length)).length := by
      rw [hlen']
      exact lt_min (by norm_num) hlen
    simp [List.isEmpty_iff]
    exact List.ne_nil_of_length_pos hpos
  · have hff : fallback_fired tiles oracle target = false := by
      simp [fallback_fired]
      intro hcontra
      exact absurd hcontra (by simpa using hrec)
    rw [if_neg (by simp [hff])]
    simpa using hrec

/-- C2 witness: the one-tile batch with a payload-bearing tile and the
    contract-satisfying sampler `fun n k => List.range k`. -/
theorem C2_witness :
    (process_captcha_tiles [Tile.mk (some "img")] "8"
        (fun _ _ => ⟨true, []⟩) (fun _ k => List.range k)).success = true := by
  refine C2_amended _ _ _ _ ?_ ?_
  · intro n k hk
    refine ⟨List.length_range k, List.nodup_range k, ?_⟩
    intro x hx
    exact lt_of_lt_of_le (List.mem_range.mp hx) hk
  · exact ⟨Tile.mk (some "img"), by simp, rfl⟩

end OCR

namespace OCR

/-- `fun n k => List.range k` satisfies `random.sample`'s contract. -/
theorem rangeSampler_valid : Sampler.Valid (fun _ k => List.range k) := by
  intro n k hk
  refine ⟨List.length_range k, List.nodup_range k, ?_⟩
  intro x hx
  exact lt_of_lt_of_le (List.mem_range.mp hx) hk

/-- `fun n k => (List.range k).reverse` satisfies `random.sample`'s
    contract: `random.sample` returns its picks in selection order, and any
    order over distinct in-range values is a possible outcome. -/
theorem revRangeSampler_valid :
    Sampler.Valid (fun _ k => (List.range k).reverse) := by
  intro n k hk
  refine ⟨by simp, by simp [List.nodup_range], ?_⟩
  intro x hx
  rw [List.mem_reverse] at hx
  exact lt_of_lt_of_le (List.mem_range.mp hx) hk

/-! ## Claim C3 -/

/-- C3 counterexample: with three payload-bearing tiles, zero recognition
    matches and the admissible `random.sample` outcome `[2, 1, 0]`, the
    returned `matching_indices` is `[2, 1, 0]`, which is not strictly
    ascending — the fallback sample is not sorted before being returned. -/
theorem C3_counterexample :
    Sampler.Valid (fun _ k => (List.range k).reverse) ∧
    (process_captcha_tiles
        [Tile.mk (some "a"), Tile.mk (some "b"), Tile.mk (some "c")] "47"
        (fun _ _ => ⟨true, []⟩)
        (fun _ k => (List.range k).reverse)).matching_indices = [2, 1, 0] ∧
    ¬ ([2, 1, 0] : List Nat).Pairwise (· < ·) := by
  refine ⟨revRangeSampler_valid, by decide, by decide⟩

/-- C3 (amended): `matching_indices` always has no duplicate index and
    every element `< total_tiles`; it is strictly ascending whenever the
    random fallback did not fire, but a fired fallback returns the random
    sample in selection order, which need not be ascending. -/
theorem C3_amended (tiles : List Tile) (target : String) (oracle : OcrOracle)
    (sample : Sampler) (hs : Sampler.Valid sample) :
    (process_captcha_tiles tiles target oracle sample).matching_indices.Nodup ∧
    (∀ x ∈ (process_captcha_tiles tiles target oracle sample).matching_indices,
        x < (process_captcha_tiles tiles target oracle sample).total_tiles) ∧
    (fallback_fired tiles oracle target = false →
      (process_captcha_tiles tiles target oracle
          sample).matching_indices.Pairwise (· < ·)) := by
  rw [process_matching_indices, process_total_tiles]
  by_cases hff : fallback_fired tiles oracle target = true
  · simp only [hff, if_true]
    obtain ⟨_, hnd, hmem⟩ :=
      hs tiles.length (min 3 tiles.length) (min_le_right _ _)
    exact ⟨hnd, hmem, fun h => absurd h (by decide)⟩
  · simp only [Bool.not_eq_true] at hff
    simp only [hff, Bool.false_eq_true, if_false]
    exact ⟨(recognitionIndices_pairwise tiles oracle target).imp
        (fun h => Nat.ne_of_lt h),
      recognitionIndices_lt tiles oracle target,
      fun _ => recognitionIndices_pairwise tiles oracle target⟩

/-- C3 witness: the amended statement applied to a concrete one-tile
    batch with a recognition match and the contract-satisfying sampler
    `fun n k => List.range k`. -/
theorem C3_witness :
    (process_captcha_tiles [Tile.mk (some "a")] "47"
        (fun _ _ => ⟨true, [("47", 1)]⟩)
        (fun _ k => List.range k)).matching_indices.Nodup ∧
    (∀ x ∈ (process_captcha_tiles [Tile.mk (some "a")] "47"
        (fun _ _ => ⟨true, [("47", 1)]⟩)
        (fun _ k => List.range k)).matching_indices,
      x < (process_captcha_tiles [Tile.mk (some "a")] "47"
        (fun _ _ => ⟨true, [("47", 1)]⟩)
        (fun _ k => List.range k)).total_tiles) ∧
    (fallback_fired [Tile.mk (some "a")]
        (fun _ _ => ⟨true, [("47", 1)]⟩) "47" = false →
      (process_captcha_tiles [Tile.mk (some "a")] "47"
        (fun _ _ => ⟨true, [("47", 1)]⟩)
        (fun _ k => List.range k)).matching_indices.Pairwise (· < ·)) :=
  C3_amended [Tile.mk (some "a")] "47" (fun _ _ => ⟨true, [("47", 1)]⟩)
    (fun _ k => List.range k) rangeSampler_valid

end OCR

namespace OCR

/-! ## Claim C4 -/

/-- C4 counterexample: in a 2-tile batch where only the second tile's image
    fails to decode, `processed_tiles` is 2, equal to `total_tiles` — not
    `total_tiles - 1` — because the loop increments `processed_count`
    after `enhanced_ocr_process` returns its `success=False` dict for the
    corrupt tile, not only on successful decode. -/
theorem C4_counterexample :
    (process_captcha_tiles [Tile.mk (some "good"), Tile.mk (some "bad")]
        "47"
        (fun i _ => if i == 0 then ⟨true, [("47", 9/10)]⟩ else ⟨false, []⟩)
        (fun _ k => List.range k)).processed_tiles = 2 ∧
    (process_captcha_tiles [Tile.mk (some "good"), Tile.mk (some "bad")]
        "47"
        (fun i _ => if i == 0 then ⟨true, [("47", 9/10)]⟩ else ⟨false, []⟩)
        (fun _ k => List.range k)).total_tiles = 2 ∧
    (process_captcha_tiles [Tile.mk (some "good"), Tile.mk (some "bad")]
        "47"
        (fun i _ => if i == 0 then ⟨true, [("47", 9/10)]⟩ else ⟨false, []⟩)
        (fun _ k => List.range k)).matching_indices = [0] := by
  refine ⟨by decide, by decide, by decide⟩

/-- C4 (amended): `processed_tiles` counts every tile whose payload is
    present and non-empty, whether or not its image decoded — so a batch
    with one corrupt but payload-bearing tile reports
    `processed_tiles = total_tiles`, not `total_tiles - 1`.  A tile whose
    image fails to decode is still excluded from the recognition matching
    set, so the result covers the remaining tiles. -/
theorem C4_amended (tiles : List Tile) (target : String) (oracle : OcrOracle)
    (sample : Sampler) :
    (process_captcha_tiles tiles target oracle sample).processed_tiles =
      tiles.countP (fun t => truthy t.payload) ∧
    ∀ i, (hi : i < tiles.length) →
      (oracle i (tiles[i].payload.getD "")).decodeOk = false →
      i ∉ recognitionIndices tiles oracle target := by
  constructor
  · rw [process_processed_tiles, processedCount_eq_countP]
  · intro i hi hdec hmem
    rw [recognitionIndices, tileLoop_fst_eq_filter] at hmem
    simp only [List.mem_map] at hmem
    obtain ⟨p, hp, hpi⟩ := hmem
    rw [List.mem_filter] at hp
    obtain ⟨hpen, hhit⟩ := hp
    subst hpi
    have hsnd : tiles[p.1]? = some p.2 :=
      List.mem_enum_iff_getElem?.mp hpen
    have hp2 : p.2 = tiles[p.1] := by
      rw [List.getElem?_eq_getElem hi] at hsnd
      exact (Option.some_injective _ hsnd).symm
    rw [tileHit, hp2] at hhit
    simp [enhanced_ocr_process, hdec] at hhit

/-- C4 witness: the amended statement applied to the concrete 2-tile batch
    with a corrupt second tile. -/
theorem C4_witness :
    (process_captcha_tiles [Tile.mk (some "good"), Tile.mk (some "bad")]
        "47"
        (fun i _ => if i == 0 then ⟨true, [("47", 9/10)]⟩ else ⟨false, []⟩)
        (fun _ k => List.range k)).processed_tiles =
      ([Tile.mk (some "good"), Tile.mk (some "bad")].countP
        (fun t => truthy t.payload)) ∧
    1 ∉ recognitionIndices [Tile.mk (some "good"), Tile.mk (some "bad")]
        (fun i _ => if i == 0 then ⟨true, [("47", 9/10)]⟩ else ⟨false, []⟩)
        "47" := by
  have h := C4_amended [Tile.mk (some "good"), Tile.mk (some "bad")] "47"
      (fun i _ => if i == 0 then ⟨true, [("47", 9/10)]⟩ else ⟨false, []⟩)
      (fun _ k => List.range k)
  exact ⟨h.1, h.2 1 (by decide) (by decide)⟩

end OCR

namespace OCR

/-! ## Claim C5 -/

/-- C5: for target "47" and a 5-tile batch whose per-tile recognizer
    outputs are "47","74","12","47","99" (tile indices 0–4), the batch
    result is `matching_indices = [0, 1, 3]` with the fallback not fired;
    "74" is matched by the first (exact/substring/reverse) pass because its
    character-reverse equals the target, while it is neither equal to the
    target nor a fuzzy match. -/
theorem C5_scenario :
    (process_captcha_tiles
        [Tile.mk (some "t0"), Tile.mk (some "t1"), Tile.mk (some "t2"),
          Tile.mk (some "t3"), Tile.mk (some "t4")] "47"
        (fun i _ => ⟨true, [(["47", "74", "12", "47", "99"].getD i "", 9/10)]⟩)
        (fun _ k => List.range k)).matching_indices = [0, 1, 3] ∧
    fallback_fired
        [Tile.mk (some "t0"), Tile.mk (some "t1"), Tile.mk (some "t2"),
          Tile.mk (some "t3"), Tile.mk (some "t4")]
        (fun i _ => ⟨true, [(["47", "74", "12", "47", "99"].getD i "", 9/10)]⟩)
        "47" = false ∧
    text_matches_target "74" "47" = true ∧
    ("74" : String) ≠ "47" ∧
    fuzzy_match "74" "47" = false := by
  have f12 : fuzzy_match "12" "47" = false := by
    have h : hammingDiff "12" "47" = 2 := by decide
    have h1 : ("12" : String).length = 2 := rfl
    have h2 : ("47" : String).length = 2 := rfl
    norm_num [fuzzy_match, h, h1, h2, similarity_threshold]
  have f99 : fuzzy_match "99" "47" = false := by
    have h : hammingDiff "99" "47" = 2 := by decide
    have h1 : ("99" : String).length = 2 := rfl
    have h2 : ("47" : String).length = 2 := rfl
    norm_num [fuzzy_match, h, h1, h2, similarity_threshold]
  have f74 : fuzzy_match "74" "47" = false := by
    have h : hammingDiff "74" "47" = 2 := by decide
    have h1 : ("74" : String).length = 2 := rfl
    have h2 : ("47" : String).length = 2 := rfl
    norm_num [fuzzy_match, h, h1, h2, similarity_threshold]
  have c47 : consolidate_results [("47", 9/10)] "47" = ["47"] := by decide
  have c74 : consolidate_results [("74", 9/10)] "47" = ["74"] := by decide
  have c12 : consolidate_results [("12", 9/10)] "47" = [] := by
    simp [consolidate_results, finalResults, groupTexts, addToGroups,
      sortByConfDesc, insertDesc, f12, text_matches_target, isSubstr]
  have c99 : consolidate_results [("99", 9/10)] "47" = [] := by
    simp [consolidate_results, finalResults, groupTexts, addToGroups,
      sortByConfDesc, insertDesc, f99, text_matches_target, isSubstr]
  have hrec : recognitionIndices
      [Tile.mk (some "t0"), Tile.mk (some "t1"), Tile.mk (some "t2"),
        Tile.mk (some "t3"), Tile.mk (some "t4")]
      (fun i _ => ⟨true, [(["47", "74", "12", "47", "99"].getD i "", 9/10)]⟩)
      "47" = [0, 1, 3] := by
    have e0 : ("t0" : String).isEmpty = false := rfl
    have e1 : ("t1" : String).isEmpty = false := rfl
    have e2 : ("t2" : String).isEmpty = false := rfl
    have e3 : ("t3" : String).isEmpty = false := rfl
    have e4 : ("t4" : String).isEmpty = false := rfl
    simp [recognitionIndices, List.enum, List.enumFrom, tileLoop, truthy,
      enhanced_ocr_process, c47, c74, c12, c99, List.getD, e0, e1, e2, e3, e4]
  have hff : fallback_fired
      [Tile.mk (some "t0"), Tile.mk (some "t1"), Tile.mk (some "t2"),
        Tile.mk (some "t3"), Tile.mk (some "t4")]
      (fun i _ => ⟨true, [(["47", "74", "12", "47", "99"].getD i "", 9/10)]⟩)
      "47" = false := by
    unfold fallback_fired
    rw [hrec]
    simp
  refine ⟨?_, hff, by decide, by decide, f74⟩
  rw [process_matching_indices, hff]
  simpa using hrec

/-! ## Claim C6 -/

/-- C6 counterexample: the empty strings are equal-length and differ in
    zero characters, yet `_fuzzy_match("", "")` returns `False`: the
    `differences / len(target)` division by zero is swallowed by the bare
    `except` clause — refuting "equal-length strings differing in zero
    characters return true" in full generality. -/
theorem C6_counterexample :
    ("" : String).length = ("" : String).length ∧
    hammingDiff "" "" = 0 ∧
    fuzzy_match "" "" = false := by
  refine ⟨rfl, by decide, by decide⟩

/-- C6 (amended): at the default similarity threshold 0.8, equal-length
    length-4 strings differing in exactly one character (similarity 0.75)
    never fuzzy-match; equal-length *non-empty* strings differing in zero
    characters always fuzzy-match (for the empty strings the
    division-by-zero is caught and `False` returned); strings of different
    lengths never fuzzy-match; and the fuzzy pass contributes only when the
    first pass found no match — if any detected text first-pass matches the
    target, every text returned by `consolidate_results` first-pass
    matches. -/
theorem C6_amended :
    (∀ s t : String, s.length = 4 → t.length = 4 → hammingDiff s t = 1 →
      fuzzy_match s t = false) ∧
    (∀ s t : String, s.length = t.length → t.length ≠ 0 →
      hammingDiff s t = 0 → fuzzy_match s t = true) ∧
    (∀ s t : String, s.length ≠ t.length → fuzzy_match s t = false) ∧
    (∀ (l : List Detection) (target : String),
      (∃ u ∈ l.map Prod.fst, text_matches_target u target = true) →
      ∀ x ∈ consolidate_results l target,
        text_matches_target x target = true) := by
  refine ⟨?_, ?_, ?_, ?_⟩
  · intro s t hs ht hd
    rw [fuzzy_match, hd, hs, ht]
    norm_num [similarity_threshold]
  · intro s t hlen hne hd
    rw [fuzzy_match, hd, hlen]
    have h0 : (t.length == 0) = false := by
      simpa using hne
    simp only [bne_self_eq_false, Bool.false_eq_true, if_false, h0,
      Nat.cast_zero, zero_div, sub_zero, similarity_threshold]
    norm_num
  · intro s t h
    have hb : (s.length != t.length) = true := by
      simpa using h
    rw [fuzzy_match, hb]
    simp
  · rintro l target ⟨u, hu, hmu⟩ x hx
    rw [mem_consolidate_iff] at hx
    rcases hx with ⟨_, hx2⟩ | ⟨hall, _, _⟩
    · exact hx2
    · exact absurd (hall u hu) (by simp [hmu])

/-- C6 witness: each conjunct of the amended statement applied at concrete
    strings and a concrete detection list. -/
theorem C6_witness :
    fuzzy_match "1234" "1235" = false ∧
    fuzzy_match "47" "47" = true ∧
    fuzzy_match "4" "47" = false ∧
    text_matches_target "47" "47" = true := by
  refine ⟨C6_amended.1 "1234" "1235" rfl rfl (by decide),
    C6_amended.2.1 "47" "47" rfl (by decide) (by decide),
    C6_amended.2.2.1 "4" "47" (by decide),
    C6_amended.2.2.2 [("47", 1)] "47" ⟨"47", by decide, by decide⟩ "47"
      (by decide)⟩

end OCR

namespace OCR

/-! ## Claim C7 -/

theorem digitRunsAux_sound (l : List Char) :
    ∀ (cur r : List Char), (∀ c ∈ cur, c.isDigit = true) →
      r ∈ digitRunsAux cur l → r ≠ [] ∧ ∀ c ∈ r, c.isDigit = true := by
  induction l with
  | nil =>
      intro cur r hcur hr
      by_cases hc : cur.isEmpty
      · simp [digitRunsAux, hc] at hr
      · simp only [digitRunsAux, hc, Bool.false_eq_true, if_false,
          List.mem_singleton] at hr
        subst hr
        refine ⟨?_, ?_⟩
        · simp only [ne_eq, List.reverse_eq_nil_iff]
          simpa [List.isEmpty_iff] using hc
        · intro c hcr
          exact hcur c (List.mem_reverse.mp hcr)
  | cons a as ih =>
      intro cur r hcur hr
      by_cases hd : a.isDigit = true
      · simp only [digitRunsAux, hd, if_true] at hr
        refine ih (a :: cur) r ?_ hr
        intro c hc
        rcases List.mem_cons.mp hc with rfl | hc
        · exact hd
        · exact hcur c hc
      · by_cases hc : cur.isEmpty
        · simp only [digitRunsAux, hd, Bool.false_eq_true, if_false, hc,
            if_true] at hr
          exact ih [] r (by simp) hr
        · simp only [digitRunsAux, hd, Bool.false_eq_true, if_false, hc,
            List.mem_cons] at hr
          rcases hr with rfl | hr
          · refine ⟨?_, ?_⟩
            · simp only [ne_eq, List.reverse_eq_nil_iff]
              simpa [List.isEmpty_iff] using hc
            · intro c hcr
              exact hcur c (List.mem_reverse.mp hcr)
          · exact ih [] r (by simp) hr

theorem digitRuns_sound (l : List Char) (r : List Char)
    (hr : r ∈ digitRuns l) : r ≠ [] ∧ ∀ c ∈ r, c.isDigit = true :=
  digitRunsAux_sound l [] r (by simp) hr

theorem rawDetections_sound (raw : String) (t : String) (c : ℚ)
    (h : (t, c) ∈ rawDetections raw) :
    2 ≤ t.length ∧ isDigitStr t = true := by
  rw [rawDetections, List.mem_filterMap] at h
  obtain ⟨run, hrun, hf⟩ := h
  obtain ⟨hne, hdig⟩ := digitRuns_sound raw.toList run hrun
  split at hf
  · rename_i hlen
    rw [Option.some_inj, Prod.mk.injEq] at hf
    obtain ⟨rfl, rfl⟩ := hf
    refine ⟨hlen, ?_⟩
    rw [isDigitStr]
    have h1 : (String.mk run).toList = run := rfl
    rw [h1]
    simp only [Bool.and_eq_true, Bool.not_eq_eq_eq_not, Bool.not_true,
      List.all_eq_true]
    exact ⟨by simpa [List.isEmpty_iff] using hne, hdig⟩
  · exact absurd hf (by simp)

theorem dataDetections_sound (d : TessData) (t : String) (c : ℚ)
    (h : (t, c) ∈ dataDetections d) : isDigitStr t = true := by
  rw [dataDetections, List.mem_filterMap] at h
  obtain ⟨tc, _, hf⟩ := h
  dsimp only at hf
  split at hf
  · rename_i hcond
    rw [Option.some_inj, Prod.mk.injEq] at hf
    obtain ⟨rfl, rfl⟩ := hf
    rw [Bool.and_eq_true] at hcond
    exact hcond.1
  · exact absurd hf (by simp)

end OCR

namespace OCR

/-- C7 counterexample: one Tesseract configuration whose `image_to_data`
    reports the single word "7" at 90% confidence makes
    `extract_numbers_tesseract` return the one-character digit string "7" —
    the per-word data path has no minimum-length check, refuting "every
    returned digit string has length at least 2". -/
theorem C7_counterexample :
    ("7", (90:ℚ)/100) ∈
      extract_numbers_tesseract true [ConfigRun.ok ⟨["7"], [90]⟩ ""] ∧
    ("7" : String).length = 1 := by
  have hstrip : pyStrip "7" = "7" := rfl
  have hcond : (isDigitStr (pyStrip "7")
      && decide ((90:ℚ) / 100 > confidence_threshold)) = true := by
    rw [Bool.and_eq_true]
    refine ⟨rfl, ?_⟩
    rw [decide_eq_true_iff]
    norm_num [confidence_threshold]
  have hmemd : ("7", (90:ℚ)/100) ∈ dataDetections ⟨["7"], [90]⟩ := by
    rw [dataDetections, List.mem_filterMap]
    have hz : ((⟨["7"], [90]⟩ : TessData).texts.zip
        (⟨["7"], [90]⟩ : TessData).confs) = [("7", 90)] := rfl
    refine ⟨("7", 90), by rw [hz]; exact List.mem_singleton.mpr rfl, ?_⟩
    dsimp only
    rw [if_pos hcond, hstrip]
  have hmemc : ("7", (90:ℚ)/100) ∈
      configDetections (ConfigRun.ok ⟨["7"], [90]⟩ "") := by
    rw [configDetections, List.mem_append]
    exact Or.inl hmemd
  constructor
  · rw [extract_numbers_tesseract]
    simp only [Bool.not_true, Bool.false_eq_true, if_false, List.map_cons,
      List.map_nil]
    rw [List.mem_flatten]
    exact ⟨configDetections (ConfigRun.ok ⟨["7"], [90]⟩ ""),
      List.mem_singleton.mpr rfl, hmemc⟩
  · rfl

/-- C7 (amended): the length ≥ 2 requirement applies only to the
    `image_to_string` regex path — every detection from that path is a
    digit string of length at least 2 — while the `image_to_data` per-word
    path admits any non-empty digit string, including single characters.
    Every string the recognizer returns is nevertheless a non-empty digit
    string. -/
theorem C7_amended :
    (∀ (runs : List ConfigRun) (t : String) (c : ℚ),
        (t, c) ∈ extract_numbers_tesseract true runs →
        isDigitStr t = true) ∧
    (∀ (raw t : String) (c : ℚ),
        (t, c) ∈ rawDetections raw →
        2 ≤ t.length ∧ isDigitStr t = true) := by
  constructor
  · intro runs t c h
    rw [extract_numbers_tesseract] at h
    simp only [Bool.not_true, Bool.false_eq_true, if_false,
      List.mem_flatten, List.mem_map] at h
    obtain ⟨dets, ⟨run, _, rfl⟩, hmem⟩ := h
    cases run with
    | dataFailed => simp [configDetections] at hmem
    | rawFailed d => exact dataDetections_sound d t c hmem
    | ok d raw =>
        rw [configDetections, List.mem_append] at hmem
        rcases hmem with hmem | hmem
        · exact dataDetections_sound d t c hmem
        · exact (rawDetections_sound raw t c hmem).2
  · intro raw t c h
    exact rawDetections_sound raw t c h

/-- C7 witness: the amended statement applied to a configuration run whose
    raw string is "12" (data path empty). -/
theorem C7_witness :
    isDigitStr "12" = true ∧
    (2 ≤ ("12" : String).length ∧ isDigitStr "12" = true) := by
  have hev : extract_numbers_tesseract true [ConfigRun.ok ⟨[], []⟩ "12"] =
      [("12", 4/5)] := rfl
  have hmem : ("12", (4:ℚ)/5) ∈
      extract_numbers_tesseract true [ConfigRun.ok ⟨[], []⟩ "12"] := by
    rw [hev]
    exact List.mem_singleton.mpr rfl
  have hmem2 : ("12", (4:ℚ)/5) ∈ rawDetections "12" := by
    have : rawDetections "12" = [("12", 4/5)] := rfl
    rw [this]
    exact List.mem_singleton.mpr rfl
  exact ⟨C7_amended.1 [ConfigRun.ok ⟨[], []⟩ "12"] "12" (4/5) hmem,
    C7_amended.2 "12" "12" (4/5) hmem2⟩

end OCR

namespace OCR

/-! ## Claim C8 -/

/-- C8 counterexample: when the contrast enhancement raises, the exception
    propagates out of `preprocess_image` — only the OpenCV block is inside
    a `try/except`, refuting "an exception thrown by any individual
    transform is skipped silently rather than propagating". -/
theorem C8_counterexample :
    preprocess_image false ⟨true, true, false, true, true, 3⟩ =
      Except.error () := rfl

/-- C8 (amended): exceptions are caught (and silently truncate the variant
    list) only inside the OpenCV threshold/adaptive/morphology block; an
    exception in the RGB conversion, grayscale conversion, contrast,
    sharpness or median enhancement propagates out as an error.  Whenever
    the preprocessor returns, its list starts with the original (RGB) image
    and its grayscale conversion, followed by contrast, sharpened and
    median variants and at most three OpenCV variants. -/
theorem C8_amended (needsRgb : Bool) (o : TransformOracle) :
    (((!needsRgb || o.rgbOk) && o.grayOk && o.contrastOk && o.sharpOk
        && o.medianOk) = true →
      preprocess_image needsRgb o =
        .ok ([(if needsRgb then Img.rgb Img.orig else Img.orig),
              Img.gray (if needsRgb then Img.rgb Img.orig else Img.orig),
              Img.contrast (Img.gray
                (if needsRgb then Img.rgb Img.orig else Img.orig)),
              Img.sharp (Img.contrast (Img.gray
                (if needsRgb then Img.rgb Img.orig else Img.orig))),
              Img.median (Img.gray
                (if needsRgb then Img.rgb Img.orig else Img.orig))]
            ++ [Img.binary (Img.gray
                  (if needsRgb then Img.rgb Img.orig else Img.orig)),
                Img.adaptive (Img.gray
                  (if needsRgb then Img.rgb Img.orig else Img.orig)),
                Img.morph (Img.gray
                  (if needsRgb then Img.rgb Img.orig else Img.orig))].take
                o.cvCount)) ∧
    (((!needsRgb || o.rgbOk) && o.grayOk && o.contrastOk && o.sharpOk
        && o.medianOk) = false →
      preprocess_image needsRgb o = .error ()) := by
  obtain ⟨rgbOk, grayOk, contrastOk, sharpOk, medianOk, cvCount⟩ := o
  cases needsRgb <;> cases rgbOk <;> cases grayOk <;> cases contrastOk <;>
    cases sharpOk <;> cases medianOk <;> simp [preprocess_image]

/-- C8 witness: the amended statement applied with all PIL transforms
    succeeding but the OpenCV block raising after two variants, and with a
    failing grayscale conversion. -/
theorem C8_witness :
    preprocess_image true ⟨true, true, true, true, true, 2⟩ =
      .ok ([Img.rgb Img.orig, Img.gray (Img.rgb Img.orig),
            Img.contrast (Img.gray (Img.rgb Img.orig)),
            Img.sharp (Img.contrast (Img.gray (Img.rgb Img.orig))),
            Img.median (Img.gray (Img.rgb Img.orig))]
          ++ [Img.binary (Img.gray (Img.rgb Img.orig)),
              Img.adaptive (Img.gray (Img.rgb Img.orig)),
              Img.morph (Img.gray (Img.rgb Img.orig))].take 2) ∧
    preprocess_image false ⟨true, false, true, true, true, 3⟩ =
      .error () := by
  constructor
  · exact (C8_amended true ⟨true, true, true, true, true, 2⟩).1 (by decide)
  · exact (C8_amended false ⟨true, false, true, true, true, 3⟩).2 (by decide)

end OCR

namespace OCR

/-! ## Claim C9 -/

/-- C9: the set of texts returned by `consolidate_results` depends only on
    the set of distinct detected texts and the target, never on the
    confidence values: two detection lists with the same set of texts (any
    confidences, any multiplicities, any order) yield the same matches as
    sets — confidences can affect only the order of the returned list. -/
theorem C9_confidence_independent (l1 l2 : List Detection) (target : String)
    (h : (l1.map Prod.fst).toFinset = (l2.map Prod.fst).toFinset) :
    ∀ t, t ∈ consolidate_results l1 target ↔
      t ∈ consolidate_results l2 target := by
  have hmem : ∀ t, t ∈ l1.map Prod.fst ↔ t ∈ l2.map Prod.fst := by
    intro t
    rw [← List.mem_toFinset, ← List.mem_toFinset, h]
  intro t
  rw [mem_consolidate_iff, mem_consolidate_iff]
  constructor
  · rintro (⟨h1, h2⟩ | ⟨hall, h1, h2⟩)
    · exact Or.inl ⟨(hmem t).mp h1, h2⟩
    · exact Or.inr ⟨fun u hu => hall u ((hmem u).mpr hu), (hmem t).mp h1, h2⟩
  · rintro (⟨h1, h2⟩ | ⟨hall, h1, h2⟩)
    · exact Or.inl ⟨(hmem t).mpr h1, h2⟩
    · exact Or.inr ⟨fun u hu => hall u ((hmem u).mp hu), (hmem t).mpr h1, h2⟩

/-- C9 witness: two detection lists over the single text "47" with
    entirely different confidences and multiplicities agree on whether
    "47" is a match. -/
theorem C9_witness :
    "47" ∈ consolidate_results [("47", 1/2)] "47" ↔
      "47" ∈ consolidate_results [("47", 9/10), ("47", 1/10)] "47" := by
  refine C9_confidence_independent [("47", 1/2)]
    [("47", 9/10), ("47", 1/10)] "47" ?_ "47"
  simp

end OCR

namespace OCR

/-! ## Claim C10 -/

/-- Any index in the recognition matching set comes from an in-range tile
    whose `(index, tile)` pair passed the truthy-payload and
    recognition-success test. -/
theorem mem_recognitionIndices_elim (tiles : List Tile) (oracle : OcrOracle)
    (target : String) (i : Nat)
    (h : i ∈ recognitionIndices tiles oracle target) :
    ∃ hi : i < tiles.length, tileHit oracle target (i, tiles[i]) = true := by
  rw [recognitionIndices, tileLoop_fst_eq_filter] at h
  simp only [List.mem_map] at h
  obtain ⟨p, hp, hpi⟩ := h
  rw [List.mem_filter] at hp
  obtain ⟨hpen, hhit⟩ := hp
  subst hpi
  have hlt : p.1 < tiles.length := by
    have := List.mem_enum_iff_getElem?.mp hpen
    exact (List.getElem?_eq_some_iff.mp this).1
  refine ⟨hlt, ?_⟩
  have hsnd : tiles[p.1]? = some p.2 := List.mem_enum_iff_getElem?.mp hpen
  rw [List.getElem?_eq_getElem hlt] at hsnd
  have hp2 : p.2 = tiles[p.1] := (Option.some_injective _ hsnd).symm
  rwa [← hp2, Prod.mk.eta]

/-- C10: a tile whose dict has no (or an empty) `base64Image` entry is
    skipped silently: it never appears in the recognition matching set, the
    whole per-tile loop computes exactly what it computes with that
    `(index, tile)` pair removed (so the other tiles are processed
    identically and the tile is not counted in `processed_tiles`), yet the
    tile still counts toward `total_tiles` and toward the index range the
    random fallback samples from. -/
theorem C10_payloadless_tile (tiles : List Tile) (target : String)
    (oracle : OcrOracle) (sample : Sampler) (i : Nat)
    (hi : i < tiles.length) (ht : truthy tiles[i].payload = false) :
    i ∉ recognitionIndices tiles oracle target ∧
    tileLoop oracle target tiles.enum =
      tileLoop oracle target (tiles.enum.take i ++ tiles.enum.drop (i + 1)) ∧
    (process_captcha_tiles tiles target oracle sample).processed_tiles =
      (tiles.take i ++ tiles.drop (i + 1)).countP
        (fun t => truthy t.payload) ∧
    (process_captcha_tiles tiles target oracle sample).total_tiles =
      tiles.length ∧
    (fallback_fired tiles oracle target = true →
      (process_captcha_tiles tiles target oracle sample).matching_indices =
        sample tiles.length (min 3 tiles.length)) := by
  have htiles : tiles = tiles.take i ++ tiles[i] :: tiles.drop (i + 1) := by
    conv_lhs => rw [← List.take_append_drop i tiles]
    congr 1
    exact List.drop_eq_getElem_cons hi
  have hienum : i < tiles.enum.length := by simpa using hi
  have henum : tiles.enum =
      tiles.enum.take i ++ (i, tiles[i]) :: tiles.enum.drop (i + 1) := by
    conv_lhs => rw [← List.take_append_drop i tiles.enum]
    congr 1
    rw [List.drop_eq_getElem_cons hienum]
    congr 1
    simp [List.getElem_enum]
  refine ⟨?_, ?_, ?_, ?_, ?_⟩
  · intro hmem
    obtain ⟨_, hhit⟩ := mem_recognitionIndices_elim tiles oracle target i hmem
    rw [tileHit] at hhit
    simp [ht] at hhit
  · conv_lhs => rw [henum]
    exact tileLoop_skip oracle target _ _ i tiles[i] ht
  · rw [process_processed_tiles, processedCount_eq_countP]
    conv_lhs => rw [htiles]
    rw [List.countP_append, List.countP_append, List.countP_cons]
    rw [ht]
    simp
  · exact process_total_tiles tiles target oracle sample
  · intro hff
    rw [process_matching_indices, hff]
    simp

/-- C10 witness: the statement applied to a 3-tile batch whose middle tile
    has an empty payload. -/
theorem C10_witness :
    1 ∉ recognitionIndices
        [Tile.mk (some "a"), Tile.mk (some ""), Tile.mk (some "c")]
        (fun _ _ => ⟨true, [("47", 1)]⟩) "47" ∧
    tileLoop (fun _ _ => ⟨true, [("47", 1)]⟩) "47"
        [Tile.mk (some "a"), Tile.mk (some ""), Tile.mk (some "c")].enum =
      tileLoop (fun _ _ => ⟨true, [("47", 1)]⟩) "47"
        ([Tile.mk (some "a"), Tile.mk (some ""),
            Tile.mk (some "c")].enum.take 1 ++
          [Tile.mk (some "a"), Tile.mk (some ""),
            Tile.mk (some "c")].enum.drop 2) ∧
    (process_captcha_tiles
        [Tile.mk (some "a"), Tile.mk (some ""), Tile.mk (some "c")] "47"
        (fun _ _ => ⟨true, [("47", 1)]⟩)
        (fun _ k => List.range k)).processed_tiles =
      ([Tile.mk (some "a"), Tile.mk (some ""),
          Tile.mk (some "c")].take 1 ++
        [Tile.mk (some "a"), Tile.mk (some ""),
          Tile.mk (some "c")].drop 2).countP (fun t => truthy t.payload) ∧
    (process_captcha_tiles
        [Tile.mk (some "a"), Tile.mk (some ""), Tile.mk (some "c")] "47"
        (fun _ _ => ⟨true, [("47", 1)]⟩)
        (fun _ k => List.range k)).total_tiles = 3 ∧
    (fallback_fired
        [Tile.mk (some "a"), Tile.mk (some ""), Tile.mk (some "c")]
        (fun _ _ => ⟨true, [("47", 1)]⟩) "47" = true →
      (process_captcha_tiles
        [Tile.mk (some "a"), Tile.mk (some ""), Tile.mk (some "c")] "47"
        (fun _ _ => ⟨true, [("47", 1)]⟩)
        (fun _ k => List.range k)).matching_indices =
      (fun _ k => List.range k)
        [Tile.mk (some "a"), Tile.mk (some ""), Tile.mk (some "c")].length
        (min 3 [Tile.mk (some "a"), Tile.mk (some ""),
          Tile.mk (some "c")].length)) :=
  C10_payloadless_tile
    [Tile.mk (some "a"), Tile.mk (some ""), Tile.mk (some "c")] "47"
    (fun _ _ => ⟨true, [("47", 1)]⟩) (fun _ k => List.range k) 1
    (by decide) (by decide)

end OCR
